import Mathlib

/-!
Verification of the rugbycodex media-transcoding worker subsystem.

The definitions below are a shallow embedding of the Python sources:
  * `StreamWorker`  — jetson_scripts/streaming/stream_worker.py (`StreamWorker.run`)
  * `SqsWorker`     — jetson_scripts/streaming/stream_worker_sqs.py
  * `Heartbeat`     — jetson_scripts/utils/visibility_heartbeat.py

External effects (S3 transfers, ffmpeg processes, Supabase writes) are modelled
by boolean/numeric outcome parameters; every database write the code performs is
recorded as an explicit event in a trace, carrying exactly the fields the
corresponding Python `update` dictionary contains.
-/

namespace StreamWorker

/-- Job states of `models.JobState` (stream_worker.py persists these values). -/
inductive JobState
  | queued | running | failed | cancelled | succeeded
deriving DecidableEq, Repr

/-- Stage pointer values, the `_Stage` enum of stream_worker.py. -/
inductive Stage
  | START | DOWNLOAD_INPUT | TRANSCODE | GENERATE_THUMBNAIL | UPLOAD_OUTPUT | COMPLETE
deriving DecidableEq, Repr, Fintype

/-- The Python enum member name of a stage, as used for `error_code` in the
top-level exception handler of `StreamWorker.run`. -/
def Stage.pyName : Stage → String
  | .START => "START"
  | .DOWNLOAD_INPUT => "DOWNLOAD_INPUT"
  | .TRANSCODE => "TRANSCODE"
  | .GENERATE_THUMBNAIL => "GENERATE_THUMBNAIL"
  | .UPLOAD_OUTPUT => "UPLOAD_OUTPUT"
  | .COMPLETE => "COMPLETE"

/-- The fields a single `jobs`-table update call sets (the keys of the Python
dict passed to `_update_job_fields` / `_update_job_state`).  A `none` / `false`
field is absent from the update. -/
structure JobFields where
  state : Option JobState
  startedAt : Bool
  finishedAt : Bool
  progress : Option ℚ
  attempt : Option ℕ
  errorCode : Option String
  errorMessage : Option String
deriving DecidableEq, Repr

/-- An update with no fields set; concrete updates override single fields. -/
def JobFields.empty : JobFields :=
  ⟨none, false, false, none, none, none, none⟩

/-- Fields of `_start_job`: `{"state": running, "started_at": now()}`. -/
def startJobFields : JobFields :=
  { JobFields.empty with state := some .running, startedAt := true }

/-- Fields of `_complete_job`: `{"state": succeeded, "finished_at": now(), "progress": 1.0}`. -/
def completeJobFields : JobFields :=
  { JobFields.empty with state := some .succeeded, finishedAt := true, progress := some 1 }

/-- Attempt persist at the top of each loop pass: `{"attempt": n}`. -/
def attemptFields (n : ℕ) : JobFields :=
  { JobFields.empty with attempt := some n }

/-- The retry-exhaustion persist `_update_job_state(JobState.FAILED)`:
`{"state": failed}` and nothing else (stream_worker.py line 372). -/
def retryExhaustedFields : JobFields :=
  { JobFields.empty with state := some .failed }

/-- The top-level exception handler's persist (stream_worker.py lines 556-560):
`{"state": failed, "error_code": stage.name, "error_message": str(e)}`. -/
def exceptionFields (stage : Stage) (msg : String) : JobFields :=
  { JobFields.empty with
      state := some .failed, errorCode := some stage.pyName, errorMessage := some msg }

/-- A database write performed during `StreamWorker.run`: either a `jobs` row
update, or the `media_assets` derivatives update
(`streaming_ready=True, thumbnail_path=...`). -/
inductive PEvent
  | job (u : JobFields)
  | mediaDerivatives
deriving DecidableEq, Repr

/-- Outcome of the external calls a single loop pass may make: whether the S3
download, ffmpeg transcode, thumbnail generation, and S3 upload succeed. -/
structure PassOutcome where
  download : Bool
  transcode : Bool
  thumbnail : Bool
  upload : Bool
deriving DecidableEq, Repr, Fintype

/-- The `if self.stage == _Stage.UPLOAD_OUTPUT:` block: on upload failure the
pass ends (`continue`) with the pointer unchanged; on success the derivatives
are persisted and `_complete_job` runs. -/
def uploadBlock (o : PassOutcome) (s : Stage) : Stage × List PEvent :=
  if s = .UPLOAD_OUTPUT then
    if o.upload then (.COMPLETE, [.mediaDerivatives, .job completeJobFields])
    else (.UPLOAD_OUTPUT, [])
  else (s, [])

/-- The `GENERATE_THUMBNAIL` block: the thumbnail result is only logged; the
pointer always advances to `UPLOAD_OUTPUT` and the pass falls through. -/
def thumbnailBlock (o : PassOutcome) (s : Stage) : Stage × List PEvent :=
  if s = .GENERATE_THUMBNAIL then uploadBlock o .UPLOAD_OUTPUT
  else uploadBlock o s

/-- The `TRANSCODE` block: failure ends the pass (`continue`) without moving
the pointer; success advances to `GENERATE_THUMBNAIL` and falls through. -/
def transcodeBlock (o : PassOutcome) (s : Stage) : Stage × List PEvent :=
  if s = .TRANSCODE then
    if o.transcode then thumbnailBlock o .GENERATE_THUMBNAIL
    else (.TRANSCODE, [])
  else thumbnailBlock o s

/-- The `DOWNLOAD_INPUT` block: failure ends the pass without moving the
pointer; success advances to `TRANSCODE` and falls through. -/
def downloadBlock (o : PassOutcome) (s : Stage) : Stage × List PEvent :=
  if s = .DOWNLOAD_INPUT then
    if o.download then transcodeBlock o .TRANSCODE
    else (.DOWNLOAD_INPUT, [])
  else transcodeBlock o s

/-- One body of the `while self.stage != _Stage.COMPLETE` loop after the
attempt accounting: the four sequential stage blocks. -/
def stagePass (o : PassOutcome) (s : Stage) : Stage × List PEvent :=
  downloadBlock o s

/-- Worker state observed between loop passes: stage pointer, attempt counter,
whether the loop has exited (`break` or `while` condition), and the trace of
database writes so far. -/
structure WState where
  stage : Stage
  attempts : ℕ
  halted : Bool
  trace : List PEvent
deriving DecidableEq, Repr

/-- State at the top of `run` after `_start_job()` and `stage = DOWNLOAD_INPUT`. -/
def initState : WState :=
  ⟨.DOWNLOAD_INPUT, 0, false, [.job startJobFields]⟩

/-- One pass of the loop: check the `while` condition, increment and persist
`attempt`, apply the retry ceiling (`attempt > 3` forces a `failed` persist and
`break`), otherwise run the stage blocks. -/
def step (o : PassOutcome) (s : WState) : WState :=
  if s.halted then s
  else if s.stage = .COMPLETE then { s with halted := true }
  else if s.attempts + 1 > 3 then
    { s with
        attempts := s.attempts + 1,
        halted := true,
        trace := s.trace ++ [.job (attemptFields (s.attempts + 1)), .job retryExhaustedFields] }
  else
    { stage := (stagePass o s.stage).1,
      attempts := s.attempts + 1,
      halted := false,
      trace := s.trace ++ [.job (attemptFields (s.attempts + 1))] ++ (stagePass o s.stage).2 }

/-- The whole loop, driven by one `PassOutcome` per pass; a halted state
ignores the remaining outcomes. -/
def run (os : List PassOutcome) : WState :=
  os.foldl (fun s o => step o s) initState

/-- The outcome the pass oracle assigns to a (retry-blocking) stage. -/
def PassOutcome.outcomeAt : PassOutcome → Stage → Bool
  | o, .DOWNLOAD_INPUT => o.download
  | o, .TRANSCODE => o.transcode
  | o, .GENERATE_THUMBNAIL => o.thumbnail
  | o, .UPLOAD_OUTPUT => o.upload
  | _, _ => true

end StreamWorker

namespace SqsWorker

/-- Constant `HLS_SEGMENT_SECONDS = 6` of stream_worker_sqs.py. -/
def HLS_SEGMENT_SECONDS : ℚ := 6

/-- Constant `STORYBOARD_COLUMNS = 5`. -/
def STORYBOARD_COLUMNS : ℕ := 5

/-- Constant `STORYBOARD_ROWS = 5`. -/
def STORYBOARD_ROWS : ℕ := 5

/-- Per-sprite frame capacity `frames_per_sprite = STORYBOARD_COLUMNS * STORYBOARD_ROWS`
in `generate_storyboard_thumbnails`. -/
def framesPerSprite : ℕ := STORYBOARD_COLUMNS * STORYBOARD_ROWS

/-- Cue time ranges written by the `for idx in range(frame_count)` loop of
`generate_storyboard_thumbnails`: starting at `current_time = start`, each
index consumes one duration, the cue running from `current_time` to
`current_time + duration`, which becomes the next `current_time`. -/
def cuesFrom (start : ℚ) : List ℚ → List (ℚ × ℚ)
  | [] => []
  | d :: ds => (start, start + d) :: cuesFrom (start + d) ds

/-- Storyboard cue ranges of `generate_storyboard_thumbnails`:
`frame_count = min(len(durations), len(sprite_files) * frames_per_sprite)` and
the loop reads `durations[idx]` for `idx < frame_count` (the
`else HLS_SEGMENT_SECONDS` branch is unreachable because
`frame_count <= len(durations)`), starting from `current_time = 0.0`. -/
def storyboard_cues (durations : List ℚ) (spriteCount : ℕ) : List (ℚ × ℚ) :=
  cuesFrom 0 (durations.take (min durations.length (spriteCount * framesPerSprite)))

/-- Clamped progress estimate of `transcode_video`:
`min(int((current_time / total_duration) * 100), 99)`; the times are
non-negative so Python `int` truncation is the floor. -/
def clampPercent (total t : ℚ) : ℤ :=
  min ⌊t / total * 100⌋ 99

/-- Progress-throttling state of `transcode_video`: `last_progress_update`
(wall-clock seconds of the last persist, initially `0`),
`last_progress_percent` (initially `0`), and the list of persisted
`transcode_progress` values so far. -/
structure PState where
  lastUpdate : ℚ
  lastPercent : ℤ
  persisted : List ℤ
deriving DecidableEq, Repr

/-- Handling of one parsed `time=` marker in the ffmpeg stderr loop of
`transcode_video`: a sample is a pair `(wall, media)` of the wall-clock time
`time.time()` at which the line is read and the parsed media time.  A zero
media time is skipped (`if current_time:` is falsy); otherwise the clamped
percentage is persisted when at least 5 wall-clock seconds passed since the
last persist or the percentage advanced by at least 10 points. -/
def progressStep (total : ℚ) (s : PState) (sample : ℚ × ℚ) : PState :=
  if sample.2 = 0 then s
  else if 5 ≤ sample.1 - s.lastUpdate ∨ 10 ≤ clampPercent total sample.2 - s.lastPercent then
    ⟨sample.1, clampPercent total sample.2, s.persisted ++ [clampPercent total sample.2]⟩
  else s

/-- All `transcode_progress` values persisted by `transcode_video` over a run
whose progress stream yields the given samples, followed by the forced
`transcode_progress=100` persisted after a clean (exit code 0) process exit. -/
def transcode_progress_run (total : ℚ) (samples : List (ℚ × ℚ)) : List ℤ :=
  (samples.foldl (progressStep total) ⟨0, 0, []⟩).persisted ++ [100]

/-- Upload loop of `upload_to_wasabi`, driven by the per-file outcome of each
`s3.upload_file` call in order: the first failing file raises, aborting the
loop and returning `False`; the stage returns `True` only if every file
uploaded without error. -/
def upload_to_wasabi : List Bool → Bool
  | [] => true
  | u :: us => if u then upload_to_wasabi us else false

/-- Database writes performed by `process_job` (stream_worker_sqs.py):
the `jobs` update to running, `media_assets` processing-stage updates
(optionally with `status` and `transcode_progress`), the derivatives update
carrying `streaming_ready`, the `jobs` success update, and the `jobs` failure
update of the `except` handler
(`{"state": "failed", "finished_at": now(), "error_message": msg}`). -/
inductive SEvent
  | jobRunning
  | stagePersist (stage : String) (status : Option String) (progress : Option ℤ)
  | derivativesPersist (streamingReady : Bool)
  | jobSucceeded
  | jobFailedPersist (msg : String)
deriving DecidableEq, Repr

/-- Job row data `process_job` reads via `get_job_details`: the persisted job
state and whether the joined `media_assets` record is present. -/
structure JobRow where
  state : String
  hasMedia : Bool
deriving DecidableEq, Repr

/-- Outcomes of the external calls of one `process_job` pipeline run. -/
structure Pipeline where
  download : Bool
  transcodeOk : Bool
  progressPersists : List ℤ
  storyboard : Bool
  uploads : List Bool
deriving DecidableEq, Repr

/-- Events persisted while `transcode_video` runs: the throttled
`transcode_progress` persists (characterised by `transcode_progress_run`),
plus the forced `100` persist on clean exit. -/
def transcodeEvents (p : Pipeline) : List SEvent :=
  p.progressPersists.map (fun v => .stagePersist "transcoding" none (some v))
  ++ (if p.transcodeOk then [.stagePersist "transcoding" none (some 100)] else [])

/-- Shallow embedding of `process_job`: returns the boolean the function
returns together with the trace of database writes.  A missing job row or
missing media asset returns `False` early; a job already in a terminal state
returns `True` as a no-op; any stage failure raises, landing in the `except`
handler which persists the failure fields and returns `False`. -/
def process_job (row : Option JobRow) (p : Pipeline) : Bool × List SEvent :=
  match row with
  | none => (false, [])
  | some r =>
    if r.state = "succeeded" ∨ r.state = "failed" then (true, [])
    else if r.hasMedia = false then (false, [])
    else if p.download = false then
      (false, [SEvent.jobRunning, SEvent.stagePersist "transcoding" none none,
        .jobFailedPersist "Download failed"])
    else if p.transcodeOk = false then
      (false, [SEvent.jobRunning, SEvent.stagePersist "transcoding" none none]
        ++ transcodeEvents p ++ [.jobFailedPersist "Transcode failed"])
    else if upload_to_wasabi p.uploads = false then
      (false, [SEvent.jobRunning, SEvent.stagePersist "transcoding" none none]
        ++ transcodeEvents p ++ [SEvent.stagePersist "transcoded" none none,
          .jobFailedPersist "Upload failed"])
    else
      (true, [SEvent.jobRunning, SEvent.stagePersist "transcoding" none none]
        ++ transcodeEvents p ++ [SEvent.stagePersist "transcoded" none none,
          SEvent.derivativesPersist true, SEvent.jobSucceeded,
          SEvent.stagePersist "complete" (some "ready") none])

/-- Fields the `except` handler of `process_job` persists to the `jobs` row
(stream_worker_sqs.py lines 995-999):
`{"state": "failed", "finished_at": now(), "error_message": str(e)}`. -/
def sqsFailureFields (msg : String) : StreamWorker.JobFields :=
  { StreamWorker.JobFields.empty with
      state := some .failed,
      finishedAt := true,
      errorMessage := some msg }

/-- Parsed SQS message body `{job_id, media_id, org_id}`; a field is `none`
when the key is absent from the JSON body. -/
structure MsgBody where
  job_id : Option String
  media_id : Option String
  org_id : Option String
deriving DecidableEq, Repr

/-- Python truthiness test `not body.get(key)`: the key is absent or maps to
an empty string. -/
def pyMissing : Option String → Bool
  | none => true
  | some s => s.isEmpty

/-- Validation in `main`: `if not job_id or not media_id or not org_id`. -/
def malformedBody (b : MsgBody) : Bool :=
  pyMissing b.job_id || pyMissing b.media_id || pyMissing b.org_id

/-- Message resolution of the `main` polling loop: a malformed message is
deleted immediately; otherwise the message is deleted exactly when
`process_job` returns `True`.  Returns whether `sqs.delete_message` is
called for the message. -/
def handle_message (b : MsgBody) (row : Option JobRow) (p : Pipeline) : Bool :=
  if malformedBody b then true
  else (process_job row p).1

end SqsWorker

namespace Heartbeat

/-- Observable event of one wake-up of `_heartbeat_loop`: the
`stop_event.wait(interval)` either observes the stop signal (loop exits), or
times out and the `change_message_visibility` call succeeds, or times out and
the call raises with the given message. -/
inductive Tick
  | stopSignal
  | renewOk
  | renewErr (msg : String)
deriving DecidableEq, Repr

/-- Renewal-loop state of `VisibilityHeartbeat`: `extension_count`,
`last_error`, the arguments of `on_failure` invocations, and whether the loop
has exited. -/
structure HState where
  extensionCount : ℕ
  lastError : Option String
  callbackCalls : List String
  exited : Bool
deriving DecidableEq, Repr

/-- Initial renewal state set in `__init__`. -/
def initH : HState := ⟨0, none, [], false⟩

/-- Shallow embedding of `_heartbeat_loop`, consuming one `Tick` per
iteration: a stop signal exits the loop; a successful renewal increments
`extension_count` and continues; a failed renewal records `last_error`,
invokes `on_failure` when provided, and breaks out of the loop (the remaining
ticks are never observed). -/
def heartbeat_loop (hasCallback : Bool) : List Tick → HState → HState
  | [], s => s
  | .stopSignal :: _, s => { s with exited := true }
  | .renewOk :: ts, s =>
      heartbeat_loop hasCallback ts { s with extensionCount := s.extensionCount + 1 }
  | .renewErr m :: _, s =>
      { s with
          lastError := some m,
          callbackCalls := if hasCallback then s.callbackCalls ++ [m] else s.callbackCalls,
          exited := true }

/-- Statistics dictionary returned by `get_stats`. -/
structure HBStats where
  extension_count : ℕ
  total_extended_seconds : ℕ
  last_error : Option String
deriving DecidableEq, Repr

/-- Shallow embedding of `get_stats` for a heartbeat configured with
`extension_seconds`. -/
def get_stats (extensionSeconds : ℕ) (s : HState) : HBStats :=
  ⟨s.extensionCount, s.extensionCount * extensionSeconds, s.lastError⟩

/-- Manager-level state of a `VisibilityHeartbeat` instance: whether `start()`
ever launched the thread (`self.thread is not None`), whether `stop_event` is
set, and the renewal-loop state. -/
structure HBManager where
  threadStarted : Bool
  stopEventSet : Bool
  loopState : HState
deriving DecidableEq, Repr

/-- Shallow embedding of `stop()`: when `self.thread is None` it returns
immediately; otherwise it sets `stop_event` and joins (joining does not touch
the renewal state). -/
def hb_stop (m : HBManager) : HBManager :=
  if m.threadStarted then { m with stopEventSet := true } else m

/-- Shallow embedding of `calculate_initial_timeout`
(visibility_heartbeat.py lines 186-216): size thresholds are expressed in GB
(`size_gb = file_size_bytes / 1024**3`, modelled over ℚ). -/
def calculate_initial_timeout (fileSizeBytes : ℕ) : ℕ :=
  if (fileSizeBytes : ℚ) / 1024 ^ 3 < 1 / 10 then 300
  else if (fileSizeBytes : ℚ) / 1024 ^ 3 < 1 / 2 then 600
  else if (fileSizeBytes : ℚ) / 1024 ^ 3 < 2 then 1200
  else if (fileSizeBytes : ℚ) / 1024 ^ 3 < 4 then 2100
  else if (fileSizeBytes : ℚ) / 1024 ^ 3 < 6 then 3000
  else 3600

/-- Shallow embedding of `estimate_processing_time`
(visibility_heartbeat.py lines 219-235): `size_gb * 30 + size_gb * 480 +
size_gb * 45 + 60`, truncated by Python `int` (the value is non-negative, so
the truncation is the floor). -/
def estimate_processing_time (fileSizeBytes : ℕ) : ℤ :=
  ⌊(fileSizeBytes : ℚ) / 1024 ^ 3 * 30 + (fileSizeBytes : ℚ) / 1024 ^ 3 * 480
    + (fileSizeBytes : ℚ) / 1024 ^ 3 * 45 + 60⌋

end Heartbeat

section Claims

open StreamWorker SqsWorker Heartbeat

-- Helper facts about a single stage pass, settled by finite case analysis.

theorem stagePass_events : ∀ (o : PassOutcome) (st : Stage),
    (stagePass o st).2 = [] ∨
      (stagePass o st).2 = [.mediaDerivatives, .job completeJobFields] := by
  decide

theorem stagePass_no_exhaust : ∀ (o : PassOutcome) (st : Stage),
    PEvent.job retryExhaustedFields ∉ (stagePass o st).2 := by
  decide

theorem stagePass_not_complete : ∀ (o : PassOutcome) (st : Stage),
    o.upload = false → st ≠ .COMPLETE → (stagePass o st).1 ≠ .COMPLETE := by
  decide

theorem attemptFields_ne_exhaust (n : ℕ) :
    PEvent.job (attemptFields n) ≠ PEvent.job retryExhaustedFields := by
  simp [attemptFields, retryExhaustedFields, JobFields.empty]

-- Invariant of the loop: the attempt counter never passes 4, the
-- retry-exhaustion persist is in the trace exactly when it has passed 3, and
-- passing 3 halts the loop.

theorem step_inv (o : PassOutcome) (s : WState)
    (h1 : s.attempts ≤ 4)
    (h2 : PEvent.job retryExhaustedFields ∈ s.trace ↔ 3 < s.attempts)
    (h3 : 3 < s.attempts → s.halted = true) :
    (step o s).attempts ≤ 4
    ∧ (PEvent.job retryExhaustedFields ∈ (step o s).trace ↔ 3 < (step o s).attempts)
    ∧ (3 < (step o s).attempts → (step o s).halted = true) := by
  unfold step
  split_ifs with hh hc hgt
  · exact ⟨h1, h2, h3⟩
  · exact ⟨h1, h2, fun _ => rfl⟩
  · have hle : s.attempts ≤ 3 := by
      by_contra hlt
      exact hh (h3 (by omega))
    refine ⟨?_, ?_, fun _ => rfl⟩
    · show s.attempts + 1 ≤ 4
      omega
    · show PEvent.job retryExhaustedFields ∈
          s.trace ++ [.job (attemptFields (s.attempts + 1)), .job retryExhaustedFields]
        ↔ 3 < s.attempts + 1
      exact ⟨fun _ => by omega, fun _ => by simp⟩
  · refine ⟨?_, ?_, ?_⟩
    · show s.attempts + 1 ≤ 4
      omega
    · show PEvent.job retryExhaustedFields ∈
          s.trace ++ [.job (attemptFields (s.attempts + 1))] ++ (stagePass o s.stage).2
        ↔ 3 < s.attempts + 1
      constructor
      · intro hmem
        rcases List.mem_append.mp hmem with hmem | hmem
        · rcases List.mem_append.mp hmem with hmem | hmem
          · have := h2.mp hmem
            omega
          · simp only [List.mem_singleton] at hmem
            exact absurd hmem.symm (attemptFields_ne_exhaust _)
        · exact absurd hmem (stagePass_no_exhaust o s.stage)
      · intro hlt
        exact absurd hlt hgt
    · intro hlt
      exact absurd (show 3 < s.attempts + 1 from hlt) hgt

theorem foldl_inv (os : List PassOutcome) :
    ∀ s : WState, s.attempts ≤ 4
    → (PEvent.job retryExhaustedFields ∈ s.trace ↔ 3 < s.attempts)
    → (3 < s.attempts → s.halted = true)
    → (os.foldl (fun s o => step o s) s).attempts ≤ 4
      ∧ (PEvent.job retryExhaustedFields ∈ (os.foldl (fun s o => step o s) s).trace
          ↔ 3 < (os.foldl (fun s o => step o s) s).attempts)
      ∧ (3 < (os.foldl (fun s o => step o s) s).attempts
          → (os.foldl (fun s o => step o s) s).halted = true) := by
  induction os with
  | nil => exact fun s h1 h2 h3 => ⟨h1, h2, h3⟩
  | cons o os ih =>
    intro s h1 h2 h3
    obtain ⟨g1, g2, g3⟩ := step_inv o s h1 h2 h3
    simpa using ih (step o s) g1 g2 g3

theorem foldl_halted (os : List PassOutcome) :
    ∀ s : WState, s.halted = true → os.foldl (fun s o => step o s) s = s := by
  induction os with
  | nil => exact fun _ _ => rfl
  | cons o os ih =>
    intro s hs
    have : step o s = s := by simp [step, hs]
    simpa [this] using ih s hs

theorem foldl_attempts_all_fail (os : List PassOutcome) :
    ∀ s : WState, (∀ o ∈ os, o.upload = false)
    → s.halted = false → s.stage ≠ .COMPLETE → s.attempts ≤ 3
    → (os.foldl (fun s o => step o s) s).attempts = min (s.attempts + os.length) 4 := by
  induction os with
  | nil =>
    intro s _ _ _ ha
    show s.attempts = min (s.attempts + 0) 4
    omega
  | cons o os ih =>
    intro s hall hh hc ha
    rw [List.foldl_cons]
    by_cases hgt : s.attempts + 1 > 3
    · have hstep : step o s =
          { s with
              attempts := s.attempts + 1,
              halted := true,
              trace := s.trace ++ [.job (attemptFields (s.attempts + 1)),
                .job retryExhaustedFields] } := by
        simp [step, hh, hc, hgt]
      rw [hstep, foldl_halted os _ rfl]
      show s.attempts + 1 = min (s.attempts + (os.length + 1)) 4
      omega
    · have hstep : step o s =
          { stage := (stagePass o s.stage).1,
            attempts := s.attempts + 1,
            halted := false,
            trace := s.trace ++ [.job (attemptFields (s.attempts + 1))]
              ++ (stagePass o s.stage).2 } := by
        simp [step, hh, hc, hgt]
      rw [hstep]
      have hne := stagePass_not_complete o s.stage (hall o (by simp)) hc
      have hrec := ih { stage := (stagePass o s.stage).1,
                        attempts := s.attempts + 1,
                        halted := false,
                        trace := s.trace ++ [.job (attemptFields (s.attempts + 1))]
                          ++ (stagePass o s.stage).2 }
        (fun o ho => hall o (by simp [ho]))
        rfl hne (show s.attempts + 1 ≤ 3 by omega)
      rw [hrec]
      show min (s.attempts + 1 + os.length) 4 = min (s.attempts + (os.length + 1)) 4
      omega

/-- C1: the attempt counter is incremented by exactly 1 before each stage-loop
pass; after N failed stage-loop passes it equals N (`min (length) 4`, the loop
stopping at 4); and the job transitions to `FAILED` with the retry-exhausted
persist exactly when `attempt` exceeds 3 — a single global ceiling shared
across all stages, never before and never after. -/
theorem C1_retry_ceiling (os : List PassOutcome) :
    (run os).attempts ≤ 4
    ∧ (PEvent.job retryExhaustedFields ∈ (run os).trace ↔ 3 < (run os).attempts)
    ∧ (∀ (o : PassOutcome) (s : WState), s.halted = false → s.stage ≠ .COMPLETE →
        (step o s).attempts = s.attempts + 1)
    ∧ ((∀ o ∈ os, o.upload = false) → (run os).attempts = min os.length 4) := by
  obtain ⟨h1, h2, _⟩ := foldl_inv os initState (by decide) (by decide) (by decide)
  refine ⟨h1, h2, ?_, ?_⟩
  · intro o s hh hc
    unfold step
    rw [if_neg (by simp [hh]), if_neg hc]
    split_ifs <;> rfl
  · intro hall
    have h := foldl_attempts_all_fail os initState hall rfl (by decide) (by decide)
    simpa [initState] using h

/-- Witness for C1 at the concrete all-fail schedule of four passes. -/
theorem C1_retry_ceiling_witness :
    (run (List.replicate 4 ⟨false, false, false, false⟩)).attempts = 4
    ∧ PEvent.job retryExhaustedFields
        ∈ (run (List.replicate 4 ⟨false, false, false, false⟩)).trace := by
  have h := C1_retry_ceiling (List.replicate 4 ⟨false, false, false, false⟩)
  have h4 : (run (List.replicate 4 ⟨false, false, false, false⟩)).attempts = 4 := by
    simpa using h.2.2.2 (by decide)
  exact ⟨h4, h.2.1.mpr (by omega)⟩

-- C2 ------------------------------------------------------------------------

/-- C2 counterexample: the `GENERATE_THUMBNAIL` stage returns failure
(`outcomeAt = false`), yet the pass advances the stage pointer to
`UPLOAD_OUTPUT`; the claim that a failing stage never advances the pointer is
false at this input. -/
theorem C2_stage_pointer_counterexample :
    PassOutcome.outcomeAt ⟨true, true, false, false⟩ .GENERATE_THUMBNAIL = false
    ∧ (stagePass ⟨true, true, false, false⟩ .GENERATE_THUMBNAIL).1 ≠ .GENERATE_THUMBNAIL
    ∧ (stagePass ⟨true, true, false, false⟩ .GENERATE_THUMBNAIL).1 = .UPLOAD_OUTPUT := by
  decide

/-- C2 (amended): for the download, transcode and upload stages a failure
leaves the stage pointer unchanged with nothing persisted (the next pass
retries the same stage); the thumbnail stage is the exception — its failure is
non-fatal and the pointer advances regardless.  A pass that does not complete
stops on a stage whose outcome is failure; a successful stage always advances
the pointer; media-asset derivatives are persisted only on upload success; the
attempt counter is never reset; and the next pass resumes exactly at the stage
where `stagePass` stopped. -/
theorem C2_stage_pointer_amended :
    (∀ (o : PassOutcome) (st : Stage),
        (st = .DOWNLOAD_INPUT ∨ st = .TRANSCODE ∨ st = .UPLOAD_OUTPUT) →
        o.outcomeAt st = false → stagePass o st = (st, []))
    ∧ (∀ (o : PassOutcome), o.thumbnail = false →
        (stagePass o .GENERATE_THUMBNAIL).1 ≠ .GENERATE_THUMBNAIL)
    ∧ (∀ (o : PassOutcome) (st : Stage), st ≠ .START → st ≠ .COMPLETE →
        (stagePass o st).1 ≠ .COMPLETE → o.outcomeAt (stagePass o st).1 = false)
    ∧ (∀ (o : PassOutcome) (st : Stage), st ≠ .START → st ≠ .COMPLETE →
        o.outcomeAt st = true → (stagePass o st).1 ≠ st)
    ∧ (∀ (o : PassOutcome) (st : Stage),
        PEvent.mediaDerivatives ∈ (stagePass o st).2 → o.upload = true)
    ∧ (∀ (o : PassOutcome) (s : WState), s.attempts ≤ (step o s).attempts)
    ∧ (∀ (o : PassOutcome) (s : WState), s.halted = false → s.stage ≠ .COMPLETE →
        s.attempts + 1 ≤ 3 → (step o s).stage = (stagePass o s.stage).1) := by
  refine ⟨by decide, by decide, by decide, by decide, by decide, ?_, ?_⟩
  · intro o s
    unfold step
    split_ifs
    · exact le_rfl
    · exact le_rfl
    · show s.attempts ≤ s.attempts + 1
      omega
    · show s.attempts ≤ s.attempts + 1
      omega
  · intro o s hh hc hle
    unfold step
    rw [if_neg (by simp [hh]), if_neg hc, if_neg (by omega)]

/-- Witness for the amended C2: a concrete upload failure leaves the pointer
on the upload stage and persists nothing. -/
theorem C2_stage_pointer_amended_witness :
    stagePass ⟨true, true, true, false⟩ .UPLOAD_OUTPUT = (.UPLOAD_OUTPUT, []) := by
  exact C2_stage_pointer_amended.1 ⟨true, true, true, false⟩ .UPLOAD_OUTPUT
    (by decide) (by decide)

-- C3 ------------------------------------------------------------------------

-- Any `failed`-state persist the stage loop makes is the bare exhaustion one.

theorem foldl_failed_persists (os : List PassOutcome) :
    ∀ s : WState,
    (∀ u, PEvent.job u ∈ s.trace → u.state = some .failed → u = retryExhaustedFields) →
    ∀ u, PEvent.job u ∈ (os.foldl (fun s o => step o s) s).trace →
      u.state = some .failed → u = retryExhaustedFields := by
  induction os with
  | nil => exact fun s h => h
  | cons o os ih =>
    intro s hs
    refine ih (step o s) ?_
    intro u hu hstate
    unfold step at hu
    split_ifs at hu with hh hc hgt
    · exact hs u hu hstate
    · exact hs u hu hstate
    · rcases List.mem_append.mp hu with hu | hu
      · exact hs u hu hstate
      · simp only [List.mem_cons, List.not_mem_nil, or_false] at hu
        rcases hu with hu | hu
        · rw [PEvent.job.injEq] at hu
          subst hu
          simp [attemptFields, JobFields.empty] at hstate
        · rw [PEvent.job.injEq] at hu
          exact hu
    · rcases List.mem_append.mp hu with hu | hu
      · rcases List.mem_append.mp hu with hu | hu
        · exact hs u hu hstate
        · simp only [List.mem_singleton] at hu
          rw [PEvent.job.injEq] at hu
          subst hu
          simp [attemptFields, JobFields.empty] at hstate
      · rcases stagePass_events o s.stage with he | he
        · rw [he] at hu
          simp at hu
        · rw [he] at hu
          simp only [List.mem_cons, List.not_mem_nil, or_false] at hu
          rcases hu with hu | hu
          · simp at hu
          · rw [PEvent.job.injEq] at hu
            subst hu
            simp [completeJobFields, JobFields.empty] at hstate

/-- C3 counterexample: at the concrete all-fail schedule the job transitions
to `FAILED` by attempt-ceiling exhaustion, but the fields persisted by that
transition (`_update_job_state(JobState.FAILED)`) carry neither
`finished_at` nor any error code/message — only `state`. -/
theorem C3_failed_persist_counterexample :
    PEvent.job retryExhaustedFields
      ∈ (run (List.replicate 4 ⟨false, false, false, false⟩)).trace
    ∧ retryExhaustedFields.finishedAt = false
    ∧ retryExhaustedFields.errorCode = none
    ∧ retryExhaustedFields.errorMessage = none := by
  decide

/-- C3 (amended): the three `FAILED` transitions persist different field sets.
The threaded worker's exhaustion path persists only `state=failed`; its
top-level exception handler persists `state=failed`, `error_code` (the current
stage name) and `error_message` but not `finished_at`; the SQS worker's
failure handler persists `state=failed`, `finished_at=now()` and
`error_message` but no error code.  Moreover the only `failed`-state `jobs`
persist the threaded stage loop ever makes is the bare exhaustion one. -/
theorem C3_failed_persist_amended :
    retryExhaustedFields.state = some .failed
    ∧ retryExhaustedFields.finishedAt = false
    ∧ retryExhaustedFields.errorCode = none
    ∧ retryExhaustedFields.errorMessage = none
    ∧ (∀ (st : Stage) (msg : String),
        (exceptionFields st msg).state = some .failed
        ∧ (exceptionFields st msg).finishedAt = false
        ∧ (exceptionFields st msg).errorCode = some st.pyName
        ∧ (exceptionFields st msg).errorMessage = some msg)
    ∧ (∀ msg : String,
        (sqsFailureFields msg).state = some .failed
        ∧ (sqsFailureFields msg).finishedAt = true
        ∧ (sqsFailureFields msg).errorMessage = some msg
        ∧ (sqsFailureFields msg).errorCode = none)
    ∧ (∀ (os : List PassOutcome) (u : JobFields),
        PEvent.job u ∈ (run os).trace → u.state = some .failed →
        u = retryExhaustedFields) := by
  refine ⟨rfl, rfl, rfl, rfl,
    fun st msg => ⟨rfl, rfl, rfl, rfl⟩,
    fun msg => ⟨rfl, rfl, rfl, rfl⟩, ?_⟩
  intro os u hu hstate
  refine foldl_failed_persists os initState ?_ u hu hstate
  intro v hv hvstate
  simp only [initState, List.mem_singleton] at hv
  rw [PEvent.job.injEq] at hv
  subst hv
  simp [startJobFields, JobFields.empty] at hvstate

/-- Witness for the amended C3 at concrete inputs. -/
theorem C3_failed_persist_amended_witness :
    (exceptionFields .TRANSCODE "boom").errorCode = some "TRANSCODE"
    ∧ (exceptionFields .TRANSCODE "boom").finishedAt = false
    ∧ (sqsFailureFields "Upload failed").finishedAt = true := by
  have h := C3_failed_persist_amended
  exact ⟨(h.2.2.2.2.1 .TRANSCODE "boom").2.2.1, (h.2.2.2.2.1 .TRANSCODE "boom").2.1,
    (h.2.2.2.2.2.1 "Upload failed").2.1⟩

-- C4 / C5 -------------------------------------------------------------------

theorem upload_all (us : List Bool) :
    upload_to_wasabi us = true ↔ ∀ u ∈ us, u = true := by
  induction us with
  | nil => simp [upload_to_wasabi]
  | cons u us ih => cases u <;> simp [upload_to_wasabi, ih]

theorem derivatives_not_in_transcodeEvents (p : Pipeline) :
    SEvent.derivativesPersist true ∉ transcodeEvents p := by
  unfold transcodeEvents
  intro h
  rcases List.mem_append.mp h with h | h
  · rcases List.mem_map.mp h with ⟨v, _, hv⟩
    cases hv
  · split_ifs at h
    · simp at h
    · simp at h

theorem derivatives_mem_upload (row : Option JobRow) (p : Pipeline) :
    SEvent.derivativesPersist true ∈ (process_job row p).2 →
    upload_to_wasabi p.uploads = true := by
  intro hmem
  cases row with
  | none => simp [process_job] at hmem
  | some r =>
    simp only [process_job] at hmem
    split_ifs at hmem with h1 h2 h3 h4 h5
    · simp at hmem
    · simp at hmem
    · simp at hmem
    · rcases List.mem_append.mp hmem with hmem | hmem
      · rcases List.mem_append.mp hmem with hmem | hmem
        · simp at hmem
        · exact absurd hmem (derivatives_not_in_transcodeEvents p)
      · simp at hmem
    · rcases List.mem_append.mp hmem with hmem | hmem
      · rcases List.mem_append.mp hmem with hmem | hmem
        · simp at hmem
        · exact absurd hmem (derivatives_not_in_transcodeEvents p)
      · simp at hmem
    · simpa using h5

/-- C4: the dispatcher deletes (acknowledges) a received message exactly when
the payload is malformed (a missing or empty `job_id`, `media_id` or
`org_id`), or the referenced job is already terminal (`succeeded`/`failed`,
a no-op), or the pipeline run succeeds (job found, media asset present, and
the download, transcode and upload stages all succeed); in every other case
the message is not deleted and is left to become visible again. -/
theorem C4_message_resolution (b : MsgBody) (row : Option JobRow) (p : Pipeline) :
    handle_message b row p = true
    ↔ (malformedBody b = true
       ∨ (∃ r, row = some r ∧ (r.state = "succeeded" ∨ r.state = "failed"))
       ∨ (∃ r, row = some r ∧ ¬(r.state = "succeeded" ∨ r.state = "failed")
            ∧ r.hasMedia = true ∧ p.download = true ∧ p.transcodeOk = true
            ∧ upload_to_wasabi p.uploads = true)) := by
  cases row with
  | none =>
    simp only [handle_message, process_job]
    split_ifs <;> simp_all
  | some r =>
    simp only [handle_message, process_job]
    split_ifs <;> simp_all

/-- C5: `streaming_ready=true` is persisted only when the upload stage
succeeded, and the upload stage reports success exactly when every file
uploads without error; hence a single failing file fails the whole stage and
`streaming_ready` is never persisted as true on that pass. -/
theorem C5_streaming_ready_gating (row : Option JobRow) (p : Pipeline) :
    (upload_to_wasabi p.uploads = true ↔ ∀ u ∈ p.uploads, u = true)
    ∧ (SEvent.derivativesPersist true ∈ (process_job row p).2 →
        upload_to_wasabi p.uploads = true)
    ∧ ((∃ u ∈ p.uploads, u = false) →
        SEvent.derivativesPersist true ∉ (process_job row p).2) := by
  refine ⟨upload_all p.uploads, derivatives_mem_upload row p, ?_⟩
  rintro ⟨u, hu, hfu⟩ hmem
  have hup := derivatives_mem_upload row p hmem
  have := (upload_all p.uploads).mp hup u hu
  rw [this] at hfu
  cases hfu

/-- Witness for C5: with the second of two files failing, the derivatives
persist carrying `streaming_ready=true` does not occur. -/
theorem C5_streaming_ready_gating_witness :
    SEvent.derivativesPersist true ∉
      (process_job (some ⟨"queued", true⟩) ⟨true, true, [], true, [true, false]⟩).2 := by
  exact (C5_streaming_ready_gating (some ⟨"queued", true⟩)
    ⟨true, true, [], true, [true, false]⟩).2.2 ⟨false, by decide, rfl⟩

-- C6 / C7 -------------------------------------------------------------------

theorem heartbeat_loop_err (pre : List Tick) :
    ∀ (rest : List Tick) (m : String) (hcb : Bool) (s : HState),
    (∀ t ∈ pre, t = Tick.renewOk) →
    heartbeat_loop hcb (pre ++ Tick.renewErr m :: rest) s =
      { extensionCount := s.extensionCount + pre.length,
        lastError := some m,
        callbackCalls := if hcb then s.callbackCalls ++ [m] else s.callbackCalls,
        exited := true } := by
  induction pre with
  | nil =>
    intro rest m hcb s _
    simp [heartbeat_loop]
  | cons t pre ih =>
    intro rest m hcb s hpre
    have ht : t = Tick.renewOk := hpre t (by simp)
    subst ht
    rw [List.cons_append]
    have hstep : heartbeat_loop hcb (Tick.renewOk :: (pre ++ Tick.renewErr m :: rest)) s
        = heartbeat_loop hcb (pre ++ Tick.renewErr m :: rest)
            { s with extensionCount := s.extensionCount + 1 } := rfl
    rw [hstep, ih rest m hcb _ (fun t ht => hpre t (List.mem_cons_of_mem _ ht))]
    simp [HState.mk.injEq]
    omega

theorem heartbeat_loop_stop (pre : List Tick) :
    ∀ (rest : List Tick) (hcb : Bool) (s : HState),
    (∀ t ∈ pre, t = Tick.renewOk) →
    heartbeat_loop hcb (pre ++ Tick.stopSignal :: rest) s =
      { extensionCount := s.extensionCount + pre.length,
        lastError := s.lastError,
        callbackCalls := s.callbackCalls,
        exited := true } := by
  induction pre with
  | nil =>
    intro rest hcb s _
    simp [heartbeat_loop]
  | cons t pre ih =>
    intro rest hcb s hpre
    have ht : t = Tick.renewOk := hpre t (by simp)
    subst ht
    rw [List.cons_append]
    have hstep : heartbeat_loop hcb (Tick.renewOk :: (pre ++ Tick.stopSignal :: rest)) s
        = heartbeat_loop hcb (pre ++ Tick.stopSignal :: rest)
            { s with extensionCount := s.extensionCount + 1 } := rfl
    rw [hstep, ih rest hcb _ (fun t ht => hpre t (List.mem_cons_of_mem _ ht))]
    simp [HState.mk.injEq]
    omega

/-- C6: if a renewal call fails after a run of successful renewals, the loop
terminates at that point and makes no further renewal calls (the result does
not depend on the remaining ticks): the extension count stays at the number of
successful renewals before the failure, `stats()` reports the failure as
`last_error`, and — when provided — the failure callback is invoked with the
exception. -/
theorem C6_renewal_failure (pre rest : List Tick) (m : String) (hcb : Bool)
    (s : HState) (ext : ℕ)
    (hpre : ∀ t ∈ pre, t = Tick.renewOk) :
    heartbeat_loop hcb (pre ++ Tick.renewErr m :: rest) s =
      { extensionCount := s.extensionCount + pre.length,
        lastError := some m,
        callbackCalls := if hcb then s.callbackCalls ++ [m] else s.callbackCalls,
        exited := true }
    ∧ (get_stats ext (heartbeat_loop hcb (pre ++ Tick.renewErr m :: rest) s)).last_error
        = some m
    ∧ (get_stats ext (heartbeat_loop hcb (pre ++ Tick.renewErr m :: rest) s)).extension_count
        = s.extensionCount + pre.length
    ∧ (hcb = true →
        (heartbeat_loop hcb (pre ++ Tick.renewErr m :: rest) s).callbackCalls
          = s.callbackCalls ++ [m]) := by
  have h := heartbeat_loop_err pre rest m hcb s hpre
  refine ⟨h, ?_, ?_, ?_⟩
  · rw [h]
    simp [get_stats]
  · rw [h]
    simp [get_stats]
  · intro hc
    rw [h]
    simp [hc]

/-- Witness for C6: one successful renewal, then a failing one; the trailing
tick is never observed, the error lands in `last_error`, the callback fires. -/
theorem C6_renewal_failure_witness :
    heartbeat_loop true [Tick.renewOk, Tick.renewErr "receipt gone", Tick.renewOk] initH
      = ⟨1, some "receipt gone", ["receipt gone"], true⟩ := by
  have h := C6_renewal_failure [Tick.renewOk] [Tick.renewOk] "receipt gone" true initH 300
    (by simp)
  simpa [initH] using h.1

/-- C7: once the stop signal is observed, the renewal loop makes no further
renewal calls, and `stats().extension_count` equals the number of renewal
intervals completed before the stop; `stop()` is idempotent, returns without
side effects when `start()` was never called, and never touches the renewal
state. -/
theorem C7_stop_semantics (pre rest : List Tick) (hcb : Bool) (s : HState)
    (m : HBManager) (ext : ℕ)
    (hpre : ∀ t ∈ pre, t = Tick.renewOk) :
    heartbeat_loop hcb (pre ++ Tick.stopSignal :: rest) s =
      { extensionCount := s.extensionCount + pre.length,
        lastError := s.lastError,
        callbackCalls := s.callbackCalls,
        exited := true }
    ∧ (get_stats ext (heartbeat_loop hcb (pre ++ Tick.stopSignal :: rest) s)).extension_count
        = s.extensionCount + pre.length
    ∧ hb_stop (hb_stop m) = hb_stop m
    ∧ (m.threadStarted = false → hb_stop m = m)
    ∧ (hb_stop m).loopState = m.loopState := by
  have h := heartbeat_loop_stop pre rest hcb s hpre
  refine ⟨h, by rw [h]; simp [get_stats], ?_, ?_, ?_⟩
  · by_cases ht : m.threadStarted = true
    · simp [hb_stop, ht]
    · simp [hb_stop, ht]
  · intro ht
    simp [hb_stop, ht]
  · unfold hb_stop
    split_ifs <;> rfl

/-- Witness for C7: two completed renewal intervals before the stop signal;
the trailing tick is never observed and `stop()` is idempotent on a concrete
manager. -/
theorem C7_stop_semantics_witness :
    heartbeat_loop false [Tick.renewOk, Tick.renewOk, Tick.stopSignal, Tick.renewOk] initH
      = ⟨2, none, [], true⟩
    ∧ hb_stop (hb_stop ⟨true, false, initH⟩) = hb_stop ⟨true, false, initH⟩ := by
  have h := C7_stop_semantics [Tick.renewOk, Tick.renewOk] [Tick.renewOk] false initH
    ⟨true, false, initH⟩ 300 (by simp)
  exact ⟨by simpa [initH] using h.1, h.2.2.1⟩

-- C8 ------------------------------------------------------------------------

theorem clampPercent_mono {total t u : ℚ} (ht : 0 < total) (h : t ≤ u) :
    clampPercent total t ≤ clampPercent total u := by
  unfold clampPercent
  refine min_le_min (Int.floor_le_floor ?_) le_rfl
  gcongr

theorem clampPercent_nonneg {total t : ℚ} (ht : 0 < total) (h0 : 0 ≤ t) :
    0 ≤ clampPercent total t := by
  unfold clampPercent
  refine le_min ?_ (by norm_num)
  rw [Int.le_floor]
  positivity

theorem clampPercent_le_99 (total t : ℚ) : clampPercent total t ≤ 99 :=
  min_le_right _ _

theorem progress_foldl_sublist (total : ℚ) (samples : List (ℚ × ℚ)) :
    ∀ s : PState,
    ∃ t, (samples.foldl (progressStep total) s).persisted = s.persisted ++ t
      ∧ t.Sublist (samples.map (fun x => clampPercent total x.2)) := by
  induction samples with
  | nil => exact fun s => ⟨[], by simp, by simp⟩
  | cons x xs ih =>
    intro s
    rw [List.foldl_cons, List.map_cons]
    by_cases h0 : x.2 = 0
    · have hps : progressStep total s x = s := by
        simp [progressStep, h0]
      rw [hps]
      obtain ⟨t, ht, hs⟩ := ih s
      exact ⟨t, ht, hs.cons _⟩
    · by_cases hg : 5 ≤ x.1 - s.lastUpdate ∨ 10 ≤ clampPercent total x.2 - s.lastPercent
      · have hps : progressStep total s x =
            ⟨x.1, clampPercent total x.2, s.persisted ++ [clampPercent total x.2]⟩ := by
          unfold progressStep
          rw [if_neg h0, if_pos hg]
        rw [hps]
        obtain ⟨t, ht, hs⟩ := ih ⟨x.1, clampPercent total x.2,
          s.persisted ++ [clampPercent total x.2]⟩
        refine ⟨clampPercent total x.2 :: t, ?_, hs.cons₂ _⟩
        rw [ht]
        simp
      · have hps : progressStep total s x = s := by
          unfold progressStep
          rw [if_neg h0, if_neg hg]
        rw [hps]
        obtain ⟨t, ht, hs⟩ := ih s
        exact ⟨t, ht, hs.cons _⟩

theorem progress_map_sorted (total : ℚ) (samples : List (ℚ × ℚ)) (ht : 0 < total)
    (hmono : samples.Pairwise (fun a b => a.2 ≤ b.2)) :
    (samples.map (fun x => clampPercent total x.2)).Pairwise (· ≤ ·) := by
  rw [List.pairwise_map]
  exact hmono.imp (fun h => clampPercent_mono ht h)

/-- C8: during the transcode stage, every persisted `transcode_progress` value
other than the final forced 100 is the clamped estimate
`min(floor(elapsed/total*100), 99)` at some observed sample; for a
monotonically increasing progress stream the persisted sequence is
monotonically non-decreasing, stays within [0, 100] and ends at exactly 100 on
clean process exit; and a new value is persisted only when at least 5 seconds
have elapsed since the last persist or the estimate advanced by at least 10
percentage points. -/
theorem C8_transcode_progress (total : ℚ) (samples : List (ℚ × ℚ))
    (ht : 0 < total)
    (hmono : samples.Pairwise (fun a b => a.2 ≤ b.2))
    (hnn : ∀ x ∈ samples, 0 ≤ x.2) :
    (∀ v ∈ transcode_progress_run total samples,
        v = 100 ∨ ∃ x ∈ samples, v = clampPercent total x.2)
    ∧ (transcode_progress_run total samples).Pairwise (· ≤ ·)
    ∧ (∀ v ∈ transcode_progress_run total samples, 0 ≤ v ∧ v ≤ 100)
    ∧ (transcode_progress_run total samples).getLast? = some 100
    ∧ (∀ (s : PState) (x : ℚ × ℚ),
        (progressStep total s x).persisted ≠ s.persisted →
        5 ≤ x.1 - s.lastUpdate ∨ 10 ≤ clampPercent total x.2 - s.lastPercent) := by
  obtain ⟨t, hteq, hsub⟩ := progress_foldl_sublist total samples ⟨0, 0, []⟩
  have hrun : transcode_progress_run total samples = t ++ [100] := by
    unfold transcode_progress_run
    rw [hteq]
    simp
  have hmem_map : ∀ v ∈ t, ∃ x ∈ samples, v = clampPercent total x.2 := by
    intro v hv
    have := hsub.subset hv
    rcases List.mem_map.mp this with ⟨x, hx, hvx⟩
    exact ⟨x, hx, hvx.symm⟩
  refine ⟨?_, ?_, ?_, ?_, ?_⟩
  · intro v hv
    rw [hrun] at hv
    rcases List.mem_append.mp hv with hv | hv
    · exact Or.inr (hmem_map v hv)
    · simp at hv
      exact Or.inl hv
  · rw [hrun]
    rw [List.pairwise_append]
    refine ⟨(progress_map_sorted total samples ht hmono).sublist hsub, by simp, ?_⟩
    intro a ha b hb
    simp only [List.mem_singleton] at hb
    subst hb
    obtain ⟨x, _, hax⟩ := hmem_map a ha
    rw [hax]
    have := clampPercent_le_99 total x.2
    omega
  · intro v hv
    rw [hrun] at hv
    rcases List.mem_append.mp hv with hv | hv
    · obtain ⟨x, hx, hvx⟩ := hmem_map v hv
      rw [hvx]
      have h1 := clampPercent_nonneg ht (hnn x hx)
      have h2 := clampPercent_le_99 total x.2
      omega
    · simp at hv
      subst hv
      omega
  · rw [hrun]
    exact List.getLast?_concat t
  · intro s x hne
    unfold progressStep at hne
    split_ifs at hne with h0 hg
    · exact absurd rfl hne
    · exact hg
    · exact absurd rfl hne

/-- Witness for C8 at a concrete monotone progress stream. -/
theorem C8_transcode_progress_witness :
    (transcode_progress_run 100 [((6 : ℚ), (30 : ℚ)), (12, 60)]).Pairwise (· ≤ ·)
    ∧ (transcode_progress_run 100 [((6 : ℚ), (30 : ℚ)), (12, 60)]).getLast? = some 100 := by
  have h := C8_transcode_progress 100 [((6 : ℚ), (30 : ℚ)), (12, 60)]
    (by norm_num) (by norm_num) (by norm_num)
  exact ⟨h.2.1, h.2.2.2.1⟩

-- C9 ------------------------------------------------------------------------

theorem cuesFrom_length : ∀ (l : List ℚ) (s : ℚ), (cuesFrom s l).length = l.length := by
  intro l
  induction l with
  | nil => intro s; simp [cuesFrom]
  | cons d ds ih => intro s; simp [cuesFrom, ih]

theorem cuesFrom_chain : ∀ (l : List ℚ) (s : ℚ),
    (cuesFrom s l).Chain' (fun a b => a.2 = b.1) := by
  intro l
  induction l with
  | nil => intro s; simp [cuesFrom]
  | cons d ds ih =>
    intro s
    rw [cuesFrom]
    refine List.chain'_cons'.mpr ⟨?_, ih (s + d)⟩
    intro b hb
    cases ds with
    | nil => simp [cuesFrom] at hb
    | cons d' ds' =>
      rw [cuesFrom] at hb
      simp only [List.head?_cons, Option.mem_def, Option.some.injEq] at hb
      rw [← hb]

theorem cuesFrom_head : ∀ (l : List ℚ) (s : ℚ) (c : ℚ × ℚ),
    (cuesFrom s l).head? = some c → c.1 = s := by
  intro l s c h
  cases l with
  | nil => simp [cuesFrom] at h
  | cons d ds =>
    rw [cuesFrom] at h
    simp only [List.head?_cons, Option.some.injEq] at h
    rw [← h]

theorem cuesFrom_getLast : ∀ (l : List ℚ) (s : ℚ) (c : ℚ × ℚ),
    (cuesFrom s l).getLast? = some c → c.2 = s + l.sum := by
  intro l
  induction l with
  | nil => intro s c h; simp [cuesFrom] at h
  | cons d ds ih =>
    intro s c h
    cases ds with
    | nil =>
      rw [cuesFrom, cuesFrom] at h
      simp only [List.getLast?_singleton, Option.some.injEq] at h
      rw [← h]
      simp
    | cons d' ds' =>
      rw [cuesFrom] at h
      rw [show cuesFrom (s + d) (d' :: ds') = (s + d, s + d + d') :: cuesFrom (s + d + d') ds'
        from rfl] at h
      rw [List.getLast?_cons_cons] at h
      rw [show (s + d, s + d + d') :: cuesFrom (s + d + d') ds' = cuesFrom (s + d) (d' :: ds')
        from rfl] at h
      have := ih (s + d) c h
      rw [this]
      simp
      ring

/-- C9: the generated storyboard cue list has exactly
`min (number of segment durations) (sprite count * 25)` frames, and the cue
timestamp ranges tile `[0, sum of covered durations)` contiguously: the first
cue starts at 0, each cue starts exactly where the previous one ends, and the
last cue ends at the sum of the consumed durations. -/
theorem C9_storyboard_cues (durations : List ℚ) (spriteCount : ℕ) :
    (storyboard_cues durations spriteCount).length
        = min durations.length (spriteCount * framesPerSprite)
    ∧ (storyboard_cues durations spriteCount).Chain' (fun a b => a.2 = b.1)
    ∧ (∀ c, (storyboard_cues durations spriteCount).head? = some c → c.1 = 0)
    ∧ (∀ c, (storyboard_cues durations spriteCount).getLast? = some c →
        c.2 = (durations.take (min durations.length (spriteCount * framesPerSprite))).sum) := by
  refine ⟨?_, cuesFrom_chain _ _, ?_, ?_⟩
  · unfold storyboard_cues
    rw [cuesFrom_length, List.length_take]
    omega
  · intro c hc
    exact cuesFrom_head _ _ _ hc
  · intro c hc
    have := cuesFrom_getLast _ _ _ hc
    simpa using this

/-- Witness for C9 at a concrete two-segment manifest with one sprite. -/
theorem C9_storyboard_cues_witness :
    (storyboard_cues [(6 : ℚ), 5] 1).length = 2
    ∧ ((11 : ℚ) = ([(6 : ℚ), 5].take (min (List.length [(6 : ℚ), 5]) (1 * framesPerSprite))).sum) := by
  have h := C9_storyboard_cues [(6 : ℚ), 5] 1
  have hc : storyboard_cues [(6 : ℚ), 5] 1 = [((0 : ℚ), (6 : ℚ)), (6, 11)] := by
    norm_num [storyboard_cues, cuesFrom, framesPerSprite, STORYBOARD_COLUMNS, STORYBOARD_ROWS]
  constructor
  · rw [h.1]
    decide
  · have := h.2.2.2 ((6 : ℚ), 11) (by rw [hc]; rfl)
    simpa using this

-- C10 -----------------------------------------------------------------------

set_option maxHeartbeats 1600000 in
/-- C10: both sizing heuristics are monotone in the file size;
`calculate_initial_timeout` always lands in [300, 3600] seconds and
`estimate_processing_time` is always at least 60 seconds. -/
theorem C10_timeout_monotone (a b : ℕ) (hab : a ≤ b) :
    calculate_initial_timeout a ≤ calculate_initial_timeout b
    ∧ estimate_processing_time a ≤ estimate_processing_time b
    ∧ (∀ n : ℕ, 300 ≤ calculate_initial_timeout n ∧ calculate_initial_timeout n ≤ 3600
        ∧ 60 ≤ estimate_processing_time n) := by
  have hab2 : (a : ℚ) ≤ (b : ℚ) := by exact_mod_cast hab
  have hq : (a : ℚ) / 1024 ^ 3 ≤ (b : ℚ) / 1024 ^ 3 := by gcongr
  refine ⟨?_, ?_, ?_⟩
  · unfold calculate_initial_timeout
    split_ifs <;> first | (exfalso; linarith) | norm_num
  · unfold estimate_processing_time
    apply Int.floor_le_floor
    linarith
  · intro n
    have hn : (0 : ℚ) ≤ (n : ℚ) / 1024 ^ 3 := by positivity
    refine ⟨?_, ?_, ?_⟩
    · unfold calculate_initial_timeout
      split_ifs <;> decide
    · unfold calculate_initial_timeout
      split_ifs <;> decide
    · unfold estimate_processing_time
      rw [Int.le_floor]
      push_cast
      linarith

/-- Witness for C10 at concrete sizes (1 byte, 6 GB, 1 GB, 0 bytes). -/
theorem C10_timeout_monotone_witness :
    calculate_initial_timeout 1 ≤ calculate_initial_timeout 6442450944
    ∧ 300 ≤ calculate_initial_timeout 1073741824
    ∧ 60 ≤ estimate_processing_time 0 := by
  have h := C10_timeout_monotone 1 6442450944 (by norm_num)
  exact ⟨h.1, (h.2.2 1073741824).1, (h.2.2 0).2.2⟩

end Claims
